import Mathlib

/-!
Verification of the liveness-and-self-healing subsystem of the
interval-server connection registry: LivenessSweeper, ReconnectReconciler,
ServerHealthMonitor, PingFailureTracker and the connection statistics
counters, shallowly embedded from the TypeScript source.

Times are modelled as integers (milliseconds since epoch, as returned by
`Date.now()` / `getTime()`); the persisted store is a list of
`HostInstance` records; the in-memory connection registry is the list of
values of the `connectedHosts` map.
-/

namespace IntervalServer

/-- Persisted host status (`HostInstance.status` enum in the schema). -/
inductive HostStatus where
  | ONLINE
  | UNREACHABLE
  | OFFLINE
deriving DecidableEq, Repr

/-- A persisted `HostInstance` record (the fields this subsystem reads). -/
structure HostInstance where
  id : String
  organizationId : String
  apiKeyId : String
  status : HostStatus
  updatedAt : Int
deriving DecidableEq, Repr

/-- A value of the in-memory `connectedHosts` map: the fields the
reconciler reads are the connection's `apiKeyId` and its `ws.id`. -/
structure ConnectedHost where
  apiKeyId : String
  wsId : String
deriving DecidableEq, Repr

/-! ### Time constants, from the sources -/

/-- `'00:01:00'::interval` in the liveness-sweep SQL, in milliseconds. -/
def LIVENESS_TIMEOUT_MS : Int := 60 * 1000

/-- `'06:00:00'::interval` in the aging-delete SQL, in milliseconds. -/
def RETENTION_WINDOW_MS : Int := 6 * 60 * 60 * 1000

/-- `HOST_UNREACHABLE_THRESHOLD = 30 * 60 * 1000` in autoReconnect.ts. -/
def HOST_UNREACHABLE_THRESHOLD : Int := 30 * 60 * 1000

/-- `RESTART_THRESHOLD = 3` in serverHealth.ts. -/
def RESTART_THRESHOLD : Nat := 3

/-- `RESTART_COOLDOWN = 60 * 60 * 1000` in serverHealth.ts. -/
def RESTART_COOLDOWN : Int := 60 * 60 * 1000

/-! ### LivenessSweeper (`checkForUnreachableHosts`)

The sweep is two raw SQL statements against the store, both measured
against the database's own clock `dbNow` (`now()` in the SQL):
first `update ... set status = 'UNREACHABLE' where status = 'ONLINE' and
"updatedAt" < (now() - '00:01:00'::interval)`, then
`delete ... where status in ('UNREACHABLE', 'OFFLINE') and
"updatedAt" < (now() - '06:00:00'::interval)`.  The raw update writes
only `status`, so `updatedAt` is unchanged by the demotion. -/

/-- The demotion statement of the sweep. -/
def markUnreachable (dbNow : Int) (store : List HostInstance) : List HostInstance :=
  store.map fun h =>
    if h.status = HostStatus.ONLINE ∧ h.updatedAt < dbNow - LIVENESS_TIMEOUT_MS then
      { h with status := HostStatus.UNREACHABLE }
    else h

/-- The aging-delete statement of the sweep. -/
def deleteAged (dbNow : Int) (store : List HostInstance) : List HostInstance :=
  store.filter fun h =>
    ¬((h.status = HostStatus.UNREACHABLE ∨ h.status = HostStatus.OFFLINE) ∧
      h.updatedAt < dbNow - RETENTION_WINDOW_MS)

/-- One full sweep cycle: demote stale ONLINE records, then delete aged
terminal records. -/
def checkForUnreachableHosts (dbNow : Int) (store : List HostInstance) : List HostInstance :=
  deleteAged dbNow (markUnreachable dbNow store)

/-- A record that enters the sweep cycle ONLINE but older than the
retention window. -/
def c6host : HostInstance :=
  { id := "host-b", organizationId := "org-1", apiKeyId := "key-1",
    status := HostStatus.ONLINE, updatedAt := 0 }

/-- The sweep cycle as the amended claim describes it: one cycle keeps
exactly the records whose last-updated time is not older than the
retention window — deleting every older record whatever its status — and
demotes to UNREACHABLE those kept records that were ONLINE and stale past
the liveness timeout. -/
def sweepCycleAmended (dbNow : Int) (store : List HostInstance) : List HostInstance :=
  (store.filter fun h => ¬ h.updatedAt < dbNow - RETENTION_WINDOW_MS).map fun h =>
    if h.status = HostStatus.ONLINE ∧ h.updatedAt < dbNow - LIVENESS_TIMEOUT_MS then
      { h with status := HostStatus.UNREACHABLE }
    else h

/-! ### ReconnectReconciler (`checkForUnreachableHostsToReset`)

The reconciler fetches every record with status UNREACHABLE and, for each
one whose `now - updatedAt` exceeds `HOST_UNREACHABLE_THRESHOLD`, either
deletes it (when some entry of the `connectedHosts` map has the same
`apiKeyId` and a different `ws.id`) or updates its status to OFFLINE.  Its
net effect on the store is modelled per record: `none` means the record
was deleted, `some` its (possibly updated) persisted state. -/

/-- Net effect of one reconciler run on the persisted store.  `now` is
`new Date()` taken at the start of the run; `registry` is the list of
values of the `connectedHosts` map. -/
def checkForUnreachableHostsToReset (now : Int) (registry : List ConnectedHost)
    (store : List HostInstance) : List HostInstance :=
  store.filterMap fun host =>
    if host.status = HostStatus.UNREACHABLE then
      let timeSinceUpdate := now - host.updatedAt
      if timeSinceUpdate > HOST_UNREACHABLE_THRESHOLD then
        let apiKeyHasNewConnection := registry.any fun connectedHost =>
          connectedHost.apiKeyId == host.apiKeyId && connectedHost.wsId != host.id
        if apiKeyHasNewConnection then
          none
        else
          some { host with status := HostStatus.OFFLINE }
      else some host
    else some host

/-! ### ServerHealthMonitor (serverHealth.ts)

Module state is `healthCheckFailures`, `lastRestartTime`,
`isServerHealthy`.  `checkServerHealth` is modelled as a function of the
database-probe outcome, the ONLINE records returned by the query, the key
set of the `connectedHosts` map, and the current failure counter.
`handleUnhealthyServer` is modelled with an explicit flag for whether the
`updateMany` call succeeds; its outcome is a `RestartAction`. -/

structure HealthState where
  healthCheckFailures : Nat
  lastRestartTime : Int
  isServerHealthy : Bool
deriving DecidableEq, Repr

/-- Outcome of a `handleUnhealthyServer` call: still cooling down (warned,
returned), scheduled `process.exit code` after the log-flush delay, or the
`updateMany` threw (error logged, no restart time recorded, no exit
scheduled). -/
inductive RestartAction where
  | cooldownSkip
  | exited (code : Nat)
  | prepareFailed
deriving DecidableEq, Repr

/-- `checkServerHealth`, as a function of the probe result `dbOk`, the
ONLINE records `onlineHosts` returned by the `findMany`, the keys of the
`connectedHosts` map, and the failure counter read inside check 2. -/
def checkServerHealth (dbOk : Bool) (onlineHosts : List HostInstance)
    (connectedHostIds : List String) (healthCheckFailures : Nat) : Bool :=
  if dbOk = false then false
  else if 0 < onlineHosts.length ∧ connectedHostIds.length = 0 ∧
      0 < healthCheckFailures then false
  else
    let disconnectedHosts := onlineHosts.filter fun host =>
      decide (host.status = HostStatus.ONLINE) && !(connectedHostIds.contains host.id)
    if disconnectedHosts.length > 3 then false else true

/-- `handleUnhealthyServer`: inside the cooldown it only warns; otherwise
it runs the bulk ONLINE→UNREACHABLE `updateMany` (success given by
`dbUpdateOk`), and only on success records the restart time and schedules
`process.exit(1)`; on failure the `catch` logs and nothing else happens. -/
def handleUnhealthyServer (now : Int) (dbUpdateOk : Bool) (st : HealthState)
    (store : List HostInstance) : HealthState × List HostInstance × RestartAction :=
  if now - st.lastRestartTime < RESTART_COOLDOWN then
    (st, store, RestartAction.cooldownSkip)
  else if dbUpdateOk then
    ({ st with lastRestartTime := now },
     store.map fun h =>
       if h.status = HostStatus.ONLINE then { h with status := HostStatus.UNREACHABLE }
       else h,
     RestartAction.exited 1)
  else
    (st, store, RestartAction.prepareFailed)

/-- One iteration of the periodic `setInterval` callback in
`startServerHealthMonitoring`: `isHealthy` is the result of
`checkServerHealth` this cycle. -/
def healthTick (isHealthy : Bool) (now : Int) (dbUpdateOk : Bool) (st : HealthState)
    (store : List HostInstance) : HealthState × List HostInstance × Option RestartAction :=
  if isHealthy then
    ({ st with healthCheckFailures := 0, isServerHealthy := true }, store, none)
  else
    let st1 : HealthState :=
      { st with healthCheckFailures := st.healthCheckFailures + 1, isServerHealthy := false }
    if st1.healthCheckFailures ≥ RESTART_THRESHOLD then
      let r := handleUnhealthyServer now dbUpdateOk st1 store
      (r.1, r.2.1, some r.2.2)
    else
      (st1, store, none)

/-- A sequence of check cycles; each tick is
(check result, `Date.now()`, whether `updateMany` would succeed).
Returns the final state, the final store, and the per-tick
`handleUnhealthyServer` outcome (`none` when it was not called). -/
def runTicks (st : HealthState) (store : List HostInstance) :
    List (Bool × Int × Bool) → HealthState × List HostInstance × List (Option RestartAction)
  | [] => (st, store, [])
  | t :: rest =>
    let r := healthTick t.1 t.2.1 t.2.2 st store
    let rr := runTicks r.1 r.2.1 rest
    (rr.1, rr.2.1, r.2.2 :: rr.2.2)

/-- An ONLINE record present when escalation runs. -/
def c2host : HostInstance :=
  { id := "host-c", organizationId := "org-1", apiKeyId := "key-2",
    status := HostStatus.ONLINE, updatedAt := 0 }

/-- Health state at the restart threshold, last restart at time 0. -/
def c2state : HealthState :=
  { healthCheckFailures := 3, lastRestartTime := 0, isServerHealthy := false }

/-- State used to instantiate the health-monitor theorems. -/
def hs0 : HealthState :=
  { healthCheckFailures := 0, lastRestartTime := 0, isServerHealthy := true }

/-- Health state with two failures accrued, last restart at time 0. -/
def hs2 : HealthState :=
  { healthCheckFailures := 2, lastRestartTime := 0, isServerHealthy := false }

/-! ### PingFailureTracker and connection counters (connectionMonitor.ts)

The ping-failure map is modelled as an association list of
`(instanceId, PingFailure)` pairs in insertion order (JS `Map` semantics);
the connection statistics are a record of the four module counters. -/

inductive ConnKind where
  | host
  | client
deriving DecidableEq, Repr

structure PingFailure where
  instanceId : String
  type : ConnKind
  organizationId : Option String
  userId : Option String
  failureCount : Nat
  firstFailureTime : Int
  lastFailureTime : Int
deriving DecidableEq, Repr

/-- `pingFailures.get(instanceId)`: look the identifier up among the
map's entries. -/
def pingMapGet : List (String × PingFailure) → String → Option PingFailure
  | [], _ => none
  | p :: t, instanceId => if p.1 == instanceId then some p.2 else pingMapGet t instanceId

/-- `recordPingFailure`: an existing entry has its `failureCount`
incremented and `lastFailureTime` set to `now` in place; otherwise a fresh
entry is inserted with count 1 and both failure times set to `now`. -/
def recordPingFailure (now : Int) (instanceId : String) (type : ConnKind)
    (organizationId userId : Option String) (m : List (String × PingFailure)) :
    List (String × PingFailure) :=
  match pingMapGet m instanceId with
  | some _ =>
      m.map fun p =>
        if p.1 == instanceId then
          (p.1, { p.2 with failureCount := p.2.failureCount + 1, lastFailureTime := now })
        else p
  | none =>
      m ++ [(instanceId,
        { instanceId := instanceId, type := type, organizationId := organizationId,
          userId := userId, failureCount := 1, firstFailureTime := now,
          lastFailureTime := now })]

/-- `clearPingFailure`: `pingFailures.delete(instanceId)`. -/
def clearPingFailure (instanceId : String) (m : List (String × PingFailure)) :
    List (String × PingFailure) :=
  m.filter fun p => p.1 != instanceId

/-- The body of the `for (const failure of pingFailures.values())` loop in
`logPingFailures`: bump the per-kind tally and append to
`criticalFailures` when `failureCount > 3`. -/
def pingFlushStep (acc : (Nat × Nat) × List PingFailure) (failure : PingFailure) :
    (Nat × Nat) × List PingFailure :=
  ((if failure.type = ConnKind.host then acc.1.1 + 1 else acc.1.1,
    if failure.type = ConnKind.client then acc.1.2 + 1 else acc.1.2),
   if failure.failureCount > 3 then acc.2 ++ [failure] else acc.2)

/-- The single pass of `logPingFailures` over the map's values: returns
the `(host, client)` failure tallies and the `criticalFailures` list. -/
def logPingFailuresPass (entries : List PingFailure) :
    (Nat × Nat) × List PingFailure :=
  entries.foldl pingFlushStep ((0, 0), [])

/-- Module counters of connectionMonitor.ts. -/
structure ConnStats where
  totalConnectionsCreated : Nat
  totalConnectionsClosed : Nat
  totalHostConnections : Nat
  totalClientConnections : Nat
deriving DecidableEq, Repr

/-- `incrementConnectionCreated`. -/
def incrementConnectionCreated (type : ConnKind) (s : ConnStats) : ConnStats :=
  match type with
  | ConnKind.host =>
      { s with totalConnectionsCreated := s.totalConnectionsCreated + 1,
               totalHostConnections := s.totalHostConnections + 1 }
  | ConnKind.client =>
      { s with totalConnectionsCreated := s.totalConnectionsCreated + 1,
               totalClientConnections := s.totalClientConnections + 1 }

/-- `incrementConnectionClosed`: only the overall closed total moves; the
`type` argument is not consulted. -/
def incrementConnectionClosed (type : ConnKind) (s : ConnStats) : ConnStats :=
  { s with totalConnectionsClosed := s.totalConnectionsClosed + 1 }

/-- An existing map with one host entry, used to instantiate the
record-ping-failure frame claim. -/
def pf0 : PingFailure :=
  { instanceId := "inst-1", type := ConnKind.host, organizationId := some "org-1",
    userId := none, failureCount := 2, firstFailureTime := 10, lastFailureTime := 20 }

theorem markUnreachable_length (dbNow : Int) (store : List HostInstance) :
    (markUnreachable dbNow store).length = store.length := by
  simp [markUnreachable]

/-- Claim C5: one LivenessSweeper demotion pass relates each record of the
store to its updated version: a record whose status is ONLINE and whose
last-updated time is more than the liveness timeout (1 minute) in the past,
as measured by the store's own clock `dbNow`, is transitioned to
UNREACHABLE, and every other record is left exactly as it was (no record is
added or dropped by the pass). -/
theorem livenessSweep_transitions_exactly_stale_online
    (dbNow : Int) (store : List HostInstance) :
    List.Forall₂ (fun h h' =>
      (h.status = HostStatus.ONLINE ∧ h.updatedAt < dbNow - LIVENESS_TIMEOUT_MS →
        h' = { h with status := HostStatus.UNREACHABLE }) ∧
      (¬(h.status = HostStatus.ONLINE ∧ h.updatedAt < dbNow - LIVENESS_TIMEOUT_MS) →
        h' = h))
      store (markUnreachable dbNow store) := by
  induction store with
  | nil => simp [markUnreachable]
  | cons h t ih =>
    refine List.Forall₂.cons ?_ ih
    by_cases hc : h.status = HostStatus.ONLINE ∧ h.updatedAt < dbNow - LIVENESS_TIMEOUT_MS
    · exact ⟨fun _ => by simp [hc], fun hn => absurd hc hn⟩
    · exact ⟨fun hp => absurd hp hc, fun _ => by simp [hc]⟩

/-- Claim C6 counterexample: a record whose status is ONLINE at the start
of the cycle, with last-updated time 7 hours in the past, is deleted by a
single sweep cycle (it is first demoted to UNREACHABLE, and the raw-SQL
demotion does not refresh `updatedAt`, so the aging delete of the same
cycle removes it) — contradicting "records with status ONLINE are never
deleted by the sweep". -/
theorem sweep_deletes_online_record :
    c6host.status = HostStatus.ONLINE ∧
    checkForUnreachableHosts (7 * 60 * 60 * 1000) [c6host] = [] := by
  exact ⟨rfl, by decide⟩

/-- Claim C6 (amended): one sweep cycle deletes exactly the records whose
last-updated time is older than the retention window (6 hours), regardless
of status — a record entering the cycle as ONLINE and older than the
window is demoted to UNREACHABLE by the cycle's first step and then
deleted by its second step — and records newer than the window are never
deleted (stale ONLINE ones among them are demoted, the rest are kept
unchanged). -/
theorem sweep_deletes_exactly_aged (dbNow : Int) (store : List HostInstance) :
    checkForUnreachableHosts dbNow store = sweepCycleAmended dbNow store := by
  unfold checkForUnreachableHosts deleteAged sweepCycleAmended markUnreachable
  rw [List.filter_map]
  congr 1
  refine List.filter_congr fun h _ => ?_
  by_cases hon : h.status = HostStatus.ONLINE ∧ h.updatedAt < dbNow - LIVENESS_TIMEOUT_MS
  · simp [Function.comp, hon]
  · rcases hs : h.status with _ | _ | _
    · have hfresh : ¬ h.updatedAt < dbNow - LIVENESS_TIMEOUT_MS := fun hlt => hon ⟨hs, hlt⟩
      have haged : ¬ h.updatedAt < dbNow - RETENTION_WINDOW_MS := by
        simp only [LIVENESS_TIMEOUT_MS] at hfresh
        simp only [RETENTION_WINDOW_MS]
        omega
      simp [Function.comp, hs, hfresh, haged]
    · simp [Function.comp, hon, hs]
    · simp [Function.comp, hon, hs]

/-- Claim C1: one reconciler run deletes a persisted UNREACHABLE record
older than the unreachable threshold exactly when some live connection in
the registry shares its API-key reference under a different identifier
(superseded); an eligible record with no superseding connection is updated
to OFFLINE, not deleted; and every record that is not UNREACHABLE, or
whose last-updated time is within the threshold, is left untouched. -/
theorem reconciler_resolves_exactly_eligible (now : Int) (registry : List ConnectedHost)
    (store : List HostInstance) :
    checkForUnreachableHostsToReset now registry store =
      store.filterMap fun host =>
        if host.status = HostStatus.UNREACHABLE ∧
            now - host.updatedAt > HOST_UNREACHABLE_THRESHOLD then
          if ∃ c ∈ registry, c.apiKeyId = host.apiKeyId ∧ c.wsId ≠ host.id then
            none
          else
            some { host with status := HostStatus.OFFLINE }
        else some host := by
  unfold checkForUnreachableHostsToReset
  refine List.filterMap_congr fun host _ => ?_
  by_cases hu : host.status = HostStatus.UNREACHABLE
  · by_cases ht : now - host.updatedAt > HOST_UNREACHABLE_THRESHOLD
    · have hany : ((registry.any fun c => c.apiKeyId == host.apiKeyId && c.wsId != host.id)
          = true) ↔ ∃ c ∈ registry, c.apiKeyId = host.apiKeyId ∧ c.wsId ≠ host.id := by
        simp [List.any_eq_true, bne_iff_ne]
      by_cases hsup : ∃ c ∈ registry, c.apiKeyId = host.apiKeyId ∧ c.wsId ≠ host.id
      · have htrue := hany.mpr hsup
        simp [hu, ht, htrue, hsup]
      · have hfalse : (registry.any fun c =>
            c.apiKeyId == host.apiKeyId && c.wsId != host.id) = false := by
          rw [← Bool.not_eq_true]
          exact fun hc => hsup (hany.mp hc)
        simp [hu, ht, hfalse, hsup]
    · simp [hu, ht]
  · simp [hu]

theorem handleUnhealthyServer_failures (now : Int) (ok : Bool) (st : HealthState)
    (store : List HostInstance) :
    (handleUnhealthyServer now ok st store).1.healthCheckFailures =
      st.healthCheckFailures := by
  unfold handleUnhealthyServer
  split_ifs <;> rfl

/-- Claim C2 counterexample: at time `RESTART_COOLDOWN` (threshold
reached, cooldown expired) with the bulk `updateMany` failing, the `catch`
only logs: the ONLINE record is not demoted, the restart timestamp is not
recorded, and no process exit is scheduled — the bulk demotion is not
best-effort-with-termination-following. -/
theorem escalation_no_exit_on_update_failure :
    (handleUnhealthyServer RESTART_COOLDOWN false c2state [c2host]).2.2 =
      RestartAction.prepareFailed ∧
    (handleUnhealthyServer RESTART_COOLDOWN false c2state [c2host]).2.1 = [c2host] ∧
    (handleUnhealthyServer RESTART_COOLDOWN false c2state [c2host]).1 = c2state := by
  refine ⟨by decide, by decide, by decide⟩

/-- Claim C2 (amended): when escalation runs outside the cooldown window
and the bulk update succeeds, every persisted ONLINE record is demoted to
UNREACHABLE (all other records untouched), the restart timestamp is
recorded, and `process.exit(1)` is scheduled after a brief delay; but when
the bulk update fails, the error is only logged — the restart timestamp is
not recorded and the process is not terminated. -/
theorem escalation_demotes_records_then_exits (now : Int) (st : HealthState)
    (store : List HostInstance)
    (hcool : RESTART_COOLDOWN ≤ now - st.lastRestartTime) :
    (List.Forall₂ (fun h h' =>
        (h.status = HostStatus.ONLINE → h' = { h with status := HostStatus.UNREACHABLE }) ∧
        (h.status ≠ HostStatus.ONLINE → h' = h))
      store (handleUnhealthyServer now true st store).2.1) ∧
    (handleUnhealthyServer now true st store).1.lastRestartTime = now ∧
    (handleUnhealthyServer now true st store).2.2 = RestartAction.exited 1 ∧
    (handleUnhealthyServer now false st store).2.2 = RestartAction.prepareFailed ∧
    (handleUnhealthyServer now false st store).2.1 = store ∧
    (handleUnhealthyServer now false st store).1 = st := by
  have hlt : ¬ now - st.lastRestartTime < RESTART_COOLDOWN := not_lt.mpr hcool
  refine ⟨?_, ?_, ?_, ?_, ?_, ?_⟩
  · have hres : (handleUnhealthyServer now true st store).2.1 =
        store.map fun h =>
          if h.status = HostStatus.ONLINE then { h with status := HostStatus.UNREACHABLE }
          else h := by
      simp [handleUnhealthyServer, hlt]
    rw [hres]
    clear hres hlt hcool
    induction store with
    | nil => simp
    | cons h t ih =>
      simp only [List.map_cons]
      refine List.Forall₂.cons ?_ ih
      by_cases hs : h.status = HostStatus.ONLINE
      · exact ⟨fun _ => by simp [hs], fun hn => absurd hs hn⟩
      · exact ⟨fun hp => absurd hp hs, fun _ => by simp [hs]⟩
  · simp [handleUnhealthyServer, hlt]
  · simp [handleUnhealthyServer, hlt]
  · simp [handleUnhealthyServer, hlt]
  · simp [handleUnhealthyServer, hlt]
  · simp [handleUnhealthyServer, hlt]

/-- Witness for the amended escalation claim at a concrete state. -/
theorem escalation_demotes_records_then_exits_witness :
    RESTART_COOLDOWN ≤ RESTART_COOLDOWN - c2state.lastRestartTime ∧
    ((List.Forall₂ (fun h h' =>
        (h.status = HostStatus.ONLINE → h' = { h with status := HostStatus.UNREACHABLE }) ∧
        (h.status ≠ HostStatus.ONLINE → h' = h))
      [c2host] (handleUnhealthyServer RESTART_COOLDOWN true c2state [c2host]).2.1) ∧
    (handleUnhealthyServer RESTART_COOLDOWN true c2state [c2host]).1.lastRestartTime =
      RESTART_COOLDOWN ∧
    (handleUnhealthyServer RESTART_COOLDOWN true c2state [c2host]).2.2 =
      RestartAction.exited 1 ∧
    (handleUnhealthyServer RESTART_COOLDOWN false c2state [c2host]).2.2 =
      RestartAction.prepareFailed ∧
    (handleUnhealthyServer RESTART_COOLDOWN false c2state [c2host]).2.1 = [c2host] ∧
    (handleUnhealthyServer RESTART_COOLDOWN false c2state [c2host]).1 = c2state) :=
  ⟨by decide,
   escalation_demotes_records_then_exits RESTART_COOLDOWN c2state [c2host] (by decide)⟩

theorem runTicks_fail_run (store : List HostInstance) (params : List (Int × Bool)) :
    ∀ st : HealthState, st.healthCheckFailures + params.length < RESTART_THRESHOLD →
      (runTicks st store (params.map fun p => (false, p))).1.healthCheckFailures =
          st.healthCheckFailures + params.length ∧
      (runTicks st store (params.map fun p => (false, p))).2.1 = store ∧
      ∀ a ∈ (runTicks st store (params.map fun p => (false, p))).2.2, a = none := by
  induction params with
  | nil =>
    intro st _
    simp [runTicks]
  | cons p ps ih =>
    intro st hlt
    have hth : ¬ st.healthCheckFailures + 1 ≥ RESTART_THRESHOLD := by
      simp only [List.length_cons] at hlt
      omega
    have hstep : healthTick false p.1 p.2 st store =
        ({ st with healthCheckFailures := st.healthCheckFailures + 1, isServerHealthy := false },
          store, none) := by
      simp [healthTick, hth]
    obtain ⟨h1, h2, h3⟩ := ih
      { st with healthCheckFailures := st.healthCheckFailures + 1, isServerHealthy := false }
      (by simp only [List.length_cons] at hlt; simp; omega)
    refine ⟨?_, ?_, ?_⟩
    · simp only [List.map_cons, runTicks, hstep, h1]
      simp only [List.length_cons]
      omega
    · simp only [List.map_cons, runTicks, hstep, h2]
    · simp only [List.map_cons, runTicks, hstep]
      intro a ha
      rcases List.mem_cons.mp ha with h | h
      · exact h
      · exact h3 a h

/-- Claim C3: starting from a zero-failure state, a run of fewer than 3
consecutive failing check cycles leaves the counter equal to the number of
failing cycles and never calls `handleUnhealthyServer`; a run of exactly 3
consecutive failing cycles brings the counter to the restart threshold and
attempts escalation exactly at the third cycle; any successful check
resets the counter to 0 and sets the healthy flag; and a single failing
cycle followed by a success ends with counter 0 and no escalation
attempted. -/
theorem failures_reach_threshold_after_three_consecutive
    (st : HealthState) (store : List HostInstance)
    (h0 : st.healthCheckFailures = 0) (params : List (Int × Bool)) :
    (params.length < RESTART_THRESHOLD →
      (runTicks st store (params.map fun p => (false, p))).1.healthCheckFailures =
          params.length ∧
      ∀ a ∈ (runTicks st store (params.map fun p => (false, p))).2.2, a = none) ∧
    (params.length = RESTART_THRESHOLD →
      (runTicks st store (params.map fun p => (false, p))).1.healthCheckFailures =
          RESTART_THRESHOLD ∧
      ∃ a, (runTicks st store (params.map fun p => (false, p))).2.2 =
        [none, none, some a]) ∧
    (∀ (st' : HealthState) (store' : List HostInstance) (now : Int) (ok : Bool),
      (healthTick true now ok st' store').1.healthCheckFailures = 0 ∧
      (healthTick true now ok st' store').1.isServerHealthy = true ∧
      (healthTick true now ok st' store').2.2 = none) ∧
    (∀ (n1 n2 : Int) (ok1 ok2 : Bool),
      (runTicks st store [(false, n1, ok1), (true, n2, ok2)]).1.healthCheckFailures = 0 ∧
      (runTicks st store [(false, n1, ok1), (true, n2, ok2)]).2.2 = [none, none]) := by
  refine ⟨?_, ?_, ?_, ?_⟩
  · intro hlen
    obtain ⟨h1, _, h3⟩ := runTicks_fail_run store params st (by omega)
    exact ⟨by rw [h1, h0, Nat.zero_add], h3⟩
  · intro hlen
    have hlen3 : params.length = 3 := by
      simpa [RESTART_THRESHOLD] using hlen
    clear hlen
    rcases params with _ | ⟨p1, _ | ⟨p2, _ | ⟨p3, _ | ⟨p4, ps⟩⟩⟩⟩ <;>
      simp only [List.length_nil, List.length_cons] at hlen3 <;> try omega
    have hth2 : ¬ st.healthCheckFailures + 1 ≥ RESTART_THRESHOLD := by
      simp [RESTART_THRESHOLD, h0]
    have hth3 : ¬ st.healthCheckFailures + 1 + 1 ≥ RESTART_THRESHOLD := by
      simp [RESTART_THRESHOLD, h0]
    have hth4 : st.healthCheckFailures + 1 + 1 + 1 ≥ RESTART_THRESHOLD := by
      simp [RESTART_THRESHOLD, h0]
    simp only [List.map_cons, List.map_nil, runTicks, healthTick, hth2, hth3, hth4,
      Bool.false_eq_true, if_false, if_true, ge_iff_le, not_le, ite_true, ite_false]
    refine ⟨?_, ⟨_, rfl⟩⟩
    rw [handleUnhealthyServer_failures]
    simp [h0, RESTART_THRESHOLD]
  · intro st' store' now ok
    refine ⟨?_, ?_, ?_⟩ <;> simp [healthTick]
  · intro n1 n2 ok1 ok2
    have hth : ¬ st.healthCheckFailures + 1 ≥ RESTART_THRESHOLD := by
      simp [RESTART_THRESHOLD, h0]
    constructor <;> simp [runTicks, healthTick, hth]

/-- Witness for the threshold claim: three failing cycles from the fresh
state reach the threshold with escalation attempted only at the third. -/
theorem failures_reach_threshold_witness :
    hs0.healthCheckFailures = 0 ∧
    (([((0 : Int), true), (1, true), (2, true)].length < RESTART_THRESHOLD →
      (runTicks hs0 [] ([((0 : Int), true), (1, true), (2, true)].map
          fun p => (false, p))).1.healthCheckFailures =
          [((0 : Int), true), (1, true), (2, true)].length ∧
      ∀ a ∈ (runTicks hs0 [] ([((0 : Int), true), (1, true), (2, true)].map
          fun p => (false, p))).2.2, a = none) ∧
    ([((0 : Int), true), (1, true), (2, true)].length = RESTART_THRESHOLD →
      (runTicks hs0 [] ([((0 : Int), true), (1, true), (2, true)].map
          fun p => (false, p))).1.healthCheckFailures = RESTART_THRESHOLD ∧
      ∃ a, (runTicks hs0 [] ([((0 : Int), true), (1, true), (2, true)].map
          fun p => (false, p))).2.2 = [none, none, some a]) ∧
    (∀ (st' : HealthState) (store' : List HostInstance) (now : Int) (ok : Bool),
      (healthTick true now ok st' store').1.healthCheckFailures = 0 ∧
      (healthTick true now ok st' store').1.isServerHealthy = true ∧
      (healthTick true now ok st' store').2.2 = none) ∧
    (∀ (n1 n2 : Int) (ok1 ok2 : Bool),
      (runTicks hs0 [] [(false, n1, ok1), (true, n2, ok2)]).1.healthCheckFailures = 0 ∧
      (runTicks hs0 [] [(false, n1, ok1), (true, n2, ok2)]).2.2 = [none, none])) :=
  ⟨rfl, failures_reach_threshold_after_three_consecutive hs0 [] rfl
    [((0 : Int), true), (1, true), (2, true)]⟩

/-- Claim C4: a failing cycle at `now1` inside the cooldown window with
the counter breaching the threshold is a logged no-op (no demotion, no
exit, restart time unchanged) while the counter keeps incrementing; the
next failing cycle at `now2`, past the cooldown and with the counter still
above threshold, fires the escalation (exit scheduled, restart time set to
`now2`). -/
theorem cooldown_defers_then_escalation_fires (now1 now2 : Int) (ok1 : Bool)
    (st : HealthState) (store : List HostInstance)
    (hcd : now1 - st.lastRestartTime < RESTART_COOLDOWN)
    (hth : RESTART_THRESHOLD ≤ st.healthCheckFailures + 1)
    (hexp : RESTART_COOLDOWN ≤ now2 - st.lastRestartTime) :
    (runTicks st store [(false, now1, ok1), (false, now2, true)]).2.2 =
      [some RestartAction.cooldownSkip, some (RestartAction.exited 1)] ∧
    (runTicks st store [(false, now1, ok1), (false, now2, true)]).1.healthCheckFailures =
      st.healthCheckFailures + 2 ∧
    (runTicks st store [(false, now1, ok1), (false, now2, true)]).1.lastRestartTime =
      now2 := by
  have hth2 : RESTART_THRESHOLD ≤ st.healthCheckFailures + 1 + 1 := by omega
  have hnot : ¬ now2 - st.lastRestartTime < RESTART_COOLDOWN := not_lt.mpr hexp
  refine ⟨?_, ?_, ?_⟩ <;>
    simp [runTicks, healthTick, handleUnhealthyServer, hcd, hth, hth2, hnot]

/-- Witness for the cooldown claim: counter at 2, last restart at time 0,
a breach at time 0 defers, a breach at time `RESTART_COOLDOWN` fires. -/
theorem cooldown_defers_then_escalation_fires_witness :
    ((0 : Int) - hs2.lastRestartTime < RESTART_COOLDOWN ∧
     RESTART_THRESHOLD ≤ hs2.healthCheckFailures + 1 ∧
     RESTART_COOLDOWN ≤ RESTART_COOLDOWN - hs2.lastRestartTime) ∧
    ((runTicks hs2 [] [(false, 0, true), (false, RESTART_COOLDOWN, true)]).2.2 =
      [some RestartAction.cooldownSkip, some (RestartAction.exited 1)] ∧
    (runTicks hs2 [] [(false, 0, true), (false, RESTART_COOLDOWN, true)]).1.healthCheckFailures =
      hs2.healthCheckFailures + 2 ∧
    (runTicks hs2 [] [(false, 0, true), (false, RESTART_COOLDOWN, true)]).1.lastRestartTime =
      RESTART_COOLDOWN) :=
  ⟨⟨by decide, by decide, by decide⟩,
   cooldown_defers_then_escalation_fires 0 RESTART_COOLDOWN true hs2 []
     (by decide) (by decide) (by decide)⟩

/-- Claim C7: with the database probe succeeding and a consistency
violation observed (persisted-ONLINE count positive, registry empty), the
check returns false whenever the failure counter is non-zero (the previous
check was already failing); with the counter at zero, the violation alone
does not fail the cycle — the check then fails exactly when the
independent disconnected-hosts threshold (more than 3) is breached. -/
theorem consistency_violation_fails_only_with_prior_failure
    (onlineHosts : List HostInstance) (failures : Nat)
    (hq : ∀ h ∈ onlineHosts, h.status = HostStatus.ONLINE)
    (hviol : 0 < onlineHosts.length) :
    (0 < failures → checkServerHealth true onlineHosts [] failures = false) ∧
    (failures = 0 →
      (checkServerHealth true onlineHosts [] failures = false ↔
        3 < onlineHosts.length)) := by
  constructor
  · intro hf
    simp [checkServerHealth, hviol, hf]
  · intro hf
    subst hf
    have hfilter : (onlineHosts.filter fun host =>
        decide (host.status = HostStatus.ONLINE)) = onlineHosts := by
      apply List.filter_eq_self.mpr
      intro h hm
      simp [hq h hm]
    by_cases hd : 3 < onlineHosts.length
    · simp [checkServerHealth, hfilter, hd]
    · simp [checkServerHealth, hfilter, hd]

/-- Witness for the consistency-violation claim: one persisted ONLINE
record, empty registry, failure counter at 1. -/
theorem consistency_violation_witness :
    ((∀ h ∈ [c2host], h.status = HostStatus.ONLINE) ∧ 0 < [c2host].length) ∧
    ((0 < 1 → checkServerHealth true [c2host] [] 1 = false) ∧
     ((1 : Nat) = 0 →
       (checkServerHealth true [c2host] [] 1 = false ↔ 3 < [c2host].length))) :=
  ⟨⟨by decide, by decide⟩,
   consistency_violation_fails_only_with_prior_failure [c2host] 1 (by decide) (by decide)⟩

theorem pingFlush_foldl_snd (entries : List PingFailure) :
    ∀ acc : (Nat × Nat) × List PingFailure,
      (entries.foldl pingFlushStep acc).2 =
        acc.2 ++ entries.filter fun f => f.failureCount > 3 := by
  induction entries with
  | nil =>
    intro acc
    simp
  | cons e es ih =>
    intro acc
    by_cases hc : e.failureCount > 3
    · simp [pingFlushStep, hc, ih, List.filter_cons]
    · simp [pingFlushStep, hc, ih, List.filter_cons]

/-- Claim C8: the flush pass over the ping-failure map yields as critical
exactly the entries whose failure count is strictly greater than 3, in map
order, for host and client kinds alike; hence an entry of the map is
critical iff its failure count exceeds 3. -/
theorem flush_marks_critical_iff_count_gt_three (entries : List PingFailure) :
    (logPingFailuresPass entries).2 =
      (entries.filter fun f => f.failureCount > 3) ∧
    ∀ f ∈ entries, (f ∈ (logPingFailuresPass entries).2 ↔ f.failureCount > 3) := by
  have heq : (logPingFailuresPass entries).2 =
      entries.filter fun f => f.failureCount > 3 := by
    simpa using pingFlush_foldl_snd entries ((0, 0), [])
  refine ⟨heq, fun f hf => ?_⟩
  rw [heq]
  simp [List.mem_filter, hf]

theorem pingMapGet_map_updIf (f : PingFailure → PingFailure) (instanceId : String) :
    ∀ (m : List (String × PingFailure)) (e : PingFailure),
      pingMapGet m instanceId = some e →
      pingMapGet (m.map fun p => if p.1 == instanceId then (p.1, f p.2) else p)
        instanceId = some (f e) := by
  intro m
  induction m with
  | nil =>
    intro e he
    simp [pingMapGet] at he
  | cons p t ih =>
    intro e he
    by_cases hk : p.1 == instanceId
    · have hpe : p.2 = e := by
        simpa [pingMapGet, hk] using he
      simp [pingMapGet, hk, hpe]
    · have he2 : pingMapGet t instanceId = some e := by
        simpa [pingMapGet, hk] using he
      simpa [pingMapGet, hk] using ih e he2

theorem pingMapGet_map_updIf_ne (f : PingFailure → PingFailure)
    (instanceId other : String) (hne : other ≠ instanceId) :
    ∀ m : List (String × PingFailure),
      pingMapGet (m.map fun p => if p.1 == instanceId then (p.1, f p.2) else p) other =
        pingMapGet m other := by
  intro m
  induction m with
  | nil => simp [pingMapGet]
  | cons p t ih =>
    by_cases hk : p.1 == instanceId
    · have hkeq : p.1 = instanceId := by simpa using hk
      have hko : ¬ (p.1 == other) = true := by
        rw [hkeq]
        simp
        exact fun hc => hne hc.symm
      simpa [pingMapGet, hk, hko] using ih
    · by_cases hko : p.1 == other
      · simp [pingMapGet, hk, hko]
      · simpa [pingMapGet, hk, hko] using ih

/-- Claim C9: recording a ping failure for an identifier that already has
an entry increments only that entry's failure count and sets its last
failure time to `now`; the entry's identifier, kind, organization, user
and first-failure time are kept (and the later call's kind, organization
and user arguments are ignored entirely); the entry of every other
identifier is unaffected. -/
theorem recordPingFailure_existing_frame
    (now : Int) (instanceId : String) (type : ConnKind) (org usr : Option String)
    (m : List (String × PingFailure)) (e : PingFailure)
    (he : pingMapGet m instanceId = some e) :
    pingMapGet (recordPingFailure now instanceId type org usr m) instanceId =
      some { e with failureCount := e.failureCount + 1, lastFailureTime := now } ∧
    (∀ other : String, other ≠ instanceId →
      pingMapGet (recordPingFailure now instanceId type org usr m) other =
        pingMapGet m other) ∧
    (∀ (type2 : ConnKind) (org2 usr2 : Option String),
      recordPingFailure now instanceId type2 org2 usr2 m =
        recordPingFailure now instanceId type org usr m) := by
  refine ⟨?_, ?_, ?_⟩
  · rw [recordPingFailure, he]
    exact pingMapGet_map_updIf
      (fun v => { v with failureCount := v.failureCount + 1, lastFailureTime := now })
      instanceId m e he
  · intro other hother
    rw [recordPingFailure, he]
    exact pingMapGet_map_updIf_ne
      (fun v => { v with failureCount := v.failureCount + 1, lastFailureTime := now })
      instanceId other hother m
  · intro type2 org2 usr2
    rw [recordPingFailure, recordPingFailure, he]

/-- Witness for the record-ping-failure frame claim. -/
theorem recordPingFailure_existing_frame_witness :
    pingMapGet [("inst-1", pf0)] "inst-1" = some pf0 ∧
    (pingMapGet (recordPingFailure 30 "inst-1" ConnKind.client (some "org-2") (some "u")
        [("inst-1", pf0)]) "inst-1" =
      some { pf0 with failureCount := pf0.failureCount + 1, lastFailureTime := 30 } ∧
    (∀ other : String, other ≠ "inst-1" →
      pingMapGet (recordPingFailure 30 "inst-1" ConnKind.client (some "org-2") (some "u")
          [("inst-1", pf0)]) other =
        pingMapGet [("inst-1", pf0)] other) ∧
    (∀ (type2 : ConnKind) (org2 usr2 : Option String),
      recordPingFailure 30 "inst-1" type2 org2 usr2 [("inst-1", pf0)] =
        recordPingFailure 30 "inst-1" ConnKind.client (some "org-2") (some "u")
          [("inst-1", pf0)])) :=
  ⟨by decide,
   recordPingFailure_existing_frame 30 "inst-1" ConnKind.client (some "org-2") (some "u")
     [("inst-1", pf0)] pf0 (by decide)⟩

/-- Claim C10: `incrementConnectionCreated` increments the cumulative
counter of its kind and leaves the other kind's counter unchanged;
`incrementConnectionClosed` increments only the overall closed total — it
ignores its kind argument entirely — so under every operation the per-kind
cumulative counters never decrease: they count connections ever created,
not currently active ones. -/
theorem perKind_counters_monotone (k k2 : ConnKind) (s : ConnStats) :
    ((incrementConnectionCreated ConnKind.host s).totalHostConnections =
        s.totalHostConnections + 1 ∧
     (incrementConnectionCreated ConnKind.host s).totalClientConnections =
        s.totalClientConnections ∧
     (incrementConnectionCreated ConnKind.client s).totalClientConnections =
        s.totalClientConnections + 1 ∧
     (incrementConnectionCreated ConnKind.client s).totalHostConnections =
        s.totalHostConnections) ∧
    (incrementConnectionClosed k s =
      { s with totalConnectionsClosed := s.totalConnectionsClosed + 1 }) ∧
    (incrementConnectionClosed k s = incrementConnectionClosed k2 s) ∧
    (s.totalHostConnections ≤ (incrementConnectionCreated k s).totalHostConnections ∧
     s.totalClientConnections ≤ (incrementConnectionCreated k s).totalClientConnections ∧
     s.totalHostConnections ≤ (incrementConnectionClosed k s).totalHostConnections ∧
     s.totalClientConnections ≤ (incrementConnectionClosed k s).totalClientConnections) := by
  rcases k <;> rcases k2 <;>
    exact ⟨⟨rfl, rfl, rfl, rfl⟩, rfl, rfl, by
      simp [incrementConnectionCreated, incrementConnectionClosed]⟩

end IntervalServer

